import Mathlib

/-!
Shallow embedding of the contact-book program `HN6_Bot_ADRES_BOOK_OOP.py`.

The program is a small interactive contact manager: value types `Name` and
`Phone` validate their payload on construction, a `Record` owns a name and a
list of phones, an `AddressBook` maps name strings to records, and a command
loop parses lines and dispatches to handler functions wrapped by the
`input_error` decorator.

Python exceptions are embedded as the `PyErr` sum type; functions that can
raise return `Except PyErr`.  Handlers that mutate shared objects in place
are embedded in state-passing style and return their post-state alongside
the outcome, so that mutations that happen before an exception is raised
remain visible, exactly as they do in Python.
-/

/-- Python exception values thrown by the program: the constructor carries
the exception message.  Only the three kinds the `input_error` decorator
distinguishes occur. -/
inductive PyErr where
  | keyError (msg : String) : PyErr
  | valueError (msg : String) : PyErr
  | indexError (msg : String) : PyErr
deriving DecidableEq, Repr

instance {ε α : Type} [DecidableEq ε] [DecidableEq α] : DecidableEq (Except ε α) := fun x y =>
  match x, y with
  | .ok a, .ok b =>
    if h : a = b then isTrue (by rw [h]) else isFalse (fun hc => h (by injection hc))
  | .ok _, .error _ => isFalse (fun hc => Except.noConfusion hc)
  | .error _, .ok _ => isFalse (fun hc => Except.noConfusion hc)
  | .error e, .error f =>
    if h : e = f then isTrue (by rw [h]) else isFalse (fun hc => h (by injection hc))

/-- The inclusive ranges of Unicode scalar values on which Python
`str.isdigit` is true of a single character: the characters of
Numeric_Type Digit or Decimal.  This is the exact truth table of
`chr(n).isdigit()` of the CPython 3.11 runtime (Unicode 14.0),
enumerated over every scalar value: the ASCII digits `0`-`9` (48-57)
together with the 778 non-ASCII digit characters — the superscripts and
subscripts, the script-specific decimal digit blocks (Arabic-Indic,
Devanagari, Bengali, ..., fullwidth), the circled and parenthesized
digits, and the mathematical and segmented digit blocks. -/
def pyDigitRanges : List (Nat × Nat) :=
  [(48, 57), (178, 179), (185, 185), (1632, 1641), (1776, 1785), (1984, 1993),
   (2406, 2415), (2534, 2543), (2662, 2671), (2790, 2799), (2918, 2927),
   (3046, 3055), (3174, 3183), (3302, 3311), (3430, 3439), (3558, 3567),
   (3664, 3673), (3792, 3801), (3872, 3881), (4160, 4169), (4240, 4249),
   (4969, 4977), (6112, 6121), (6160, 6169), (6470, 6479), (6608, 6618),
   (6784, 6793), (6800, 6809), (6992, 7001), (7088, 7097), (7232, 7241),
   (7248, 7257), (8304, 8304), (8308, 8313), (8320, 8329), (9312, 9320),
   (9332, 9340), (9352, 9360), (9450, 9450), (9461, 9469), (9471, 9471),
   (10102, 10110), (10112, 10120), (10122, 10130), (42528, 42537),
   (43216, 43225), (43264, 43273), (43472, 43481), (43504, 43513),
   (43600, 43609), (44016, 44025), (65296, 65305), (66720, 66729),
   (68160, 68163), (68912, 68921), (69216, 69224), (69714, 69722),
   (69734, 69743), (69872, 69881), (69942, 69951), (70096, 70105),
   (70384, 70393), (70736, 70745), (70864, 70873), (71248, 71257),
   (71360, 71369), (71472, 71481), (71904, 71913), (72016, 72025),
   (72784, 72793), (73040, 73049), (73120, 73129), (92768, 92777),
   (92864, 92873), (93008, 93017), (120782, 120831), (123200, 123209),
   (123632, 123641), (125264, 125273), (127232, 127242), (130032, 130041)]

/-- Python `str.isdigit` on a single character: its scalar value lies in
one of the `pyDigitRanges`.  Note this is strictly wider than the ASCII
decimal digits `0`-`9`. -/
def pyCharIsdigit (c : Char) : Bool :=
  pyDigitRanges.any (fun r => decide (r.1 ≤ c.toNat) && decide (c.toNat ≤ r.2))

/-- Python `str.isdigit`: true when the string is nonempty and every
character is a digit character in the Unicode sense of
`pyCharIsdigit` (not only `0`-`9`). -/
def pyStrIsdigit (s : String) : Bool :=
  !s.data.isEmpty && s.data.all pyCharIsdigit

/-- Python `str.strip()` on the character list: drop whitespace from both
ends. -/
def pyStrip (l : List Char) : List Char :=
  ((l.dropWhile Char.isWhitespace).reverse.dropWhile Char.isWhitespace).reverse

/-- Python `str.lower()` on the character list (ASCII case folding). -/
def pyLower (l : List Char) : List Char :=
  l.map Char.toLower

/-- Accumulator pass for Python `str.split()` with no separator argument:
runs of whitespace separate maximal nonempty words.  `acc` holds the
current word reversed. -/
def pyWordsAux : List Char → List Char → List (List Char)
  | [], acc => if acc.isEmpty then [] else [acc.reverse]
  | c :: cs, acc =>
    if c.isWhitespace then
      if acc.isEmpty then pyWordsAux cs [] else acc.reverse :: pyWordsAux cs []
    else pyWordsAux cs (c :: acc)

/-- Python `str.split()` with no separator argument. -/
def pyWords (l : List Char) : List (List Char) :=
  pyWordsAux l []

/-- Embeds `parse_input` (source lines 112-120):
`cmd, *args = user_input.strip().lower().split()`.  Unpacking an empty
split result raises an uncaught `ValueError`, embedded as `none`. -/
def parse_input (s : String) : Option (String × List String) :=
  match pyWords (pyLower (pyStrip s.data)) with
  | [] => none
  | cmd :: args => some (⟨cmd⟩, args.map (fun w => ⟨w⟩))

/-- The `Name` field value (source lines 13-18): wraps the string. -/
structure Name where
  value : String
deriving DecidableEq, Repr

/-- Embeds `Name.__init__`: raises `ValueError` when the value is falsy,
i.e. the empty string. -/
def Name.create (value : String) : Except PyErr Name :=
  if value = "" then .error (.valueError "Name cannot be empty")
  else .ok ⟨value⟩

/-- The `Phone` field value (source lines 21-31): wraps the string. -/
structure Phone where
  value : String
deriving DecidableEq, Repr

/-- Embeds `Phone.validate_phone` (source lines 28-31):
`phone.isdigit() and len(phone) == 10`. -/
def Phone.validate_phone (phone : String) : Bool :=
  pyStrIsdigit phone && phone.length == 10

/-- Embeds `Phone.__init__` (source lines 22-26): raises `ValueError`
when validation fails. -/
def Phone.create (value : String) : Except PyErr Phone :=
  if Phone.validate_phone value then .ok ⟨value⟩
  else .error (.valueError "Phone number must be 10 digits")

/-- One contact (source lines 34-71): a name plus an ordered list of
phones.  Python holds distinct `Phone` objects; since a `Phone` object
carries nothing but its string value, value equality of this embedding
coincides with the object identities the source manipulates (it only ever
removes the very object `find_phone` returned). -/
structure Record where
  name : Name
  phones : List Phone
deriving DecidableEq, Repr

/-- Embeds `Record.__init__` (source lines 35-38): validates the name via
`Name.__init__` and starts with an empty phone list. -/
def Record.create (name : String) : Except PyErr Record :=
  (Name.create name).map fun n => ⟨n, []⟩

/-- Embeds `Record.add_phone` (source lines 40-42): validate via
`Phone.__init__`, then append.  When validation raises, the list is
untouched. -/
def Record.add_phone (r : Record) (phone : String) : Except PyErr Unit × Record :=
  match Phone.create phone with
  | .ok p => (.ok (), { r with phones := r.phones ++ [p] })
  | .error e => (.error e, r)

/-- Embeds `Record.find_phone` (source lines 61-66): linear scan, first
phone whose value equals the argument. -/
def Record.find_phone (r : Record) (phone : String) : Option Phone :=
  r.phones.find? (fun p => p.value == phone)

/-- Embeds `Record.remove_phone` (source lines 44-50): locate via
`find_phone`; remove that object from the list (`list.remove` drops the
first occurrence), else raise `ValueError`. -/
def Record.remove_phone (r : Record) (phone : String) : Except PyErr Unit × Record :=
  match r.find_phone phone with
  | some p => (.ok (), { r with phones := r.phones.erase p })
  | none => (.error (.valueError "Phone number not found"), r)

/-- Embeds `Record.edit_phone` (source lines 52-59): locate the old phone,
then `remove_phone` followed by `add_phone` as two separate steps; an
exception from `add_phone` propagates after the removal already happened. -/
def Record.edit_phone (r : Record) (old_phone new_phone : String) :
    Except PyErr Unit × Record :=
  match r.find_phone old_phone with
  | some _ =>
    match r.remove_phone old_phone with
    | (.ok _, r1) => r1.add_phone new_phone
    | (.error e, r1) => (.error e, r1)
  | none => (.error (.valueError "Old phone number not found"), r)

/-- Embeds `Record.__str__` (source lines 68-71). -/
def Record.render (r : Record) : String :=
  "Contact name: " ++ r.name.value ++ ", phones: " ++
    String.intercalate "; " (r.phones.map Phone.value)

/-- The address book (source lines 74-92): a `UserDict` mapping name
strings to records, embedded as the underlying insertion-ordered
association list `data`. -/
structure AddressBook where
  data : List (String × Record)
deriving DecidableEq, Repr

/-- Python `dict` item assignment `d[k] = v`: an existing key keeps its
position and gets the new value; a new key is appended at the end. -/
def dictSet (l : List (String × Record)) (k : String) (v : Record) :
    List (String × Record) :=
  if l.any (fun kv => kv.1 == k) then
    l.map (fun kv => if kv.1 == k then (k, v) else kv)
  else l ++ [(k, v)]

/-- Embeds `AddressBook.add_record` (source lines 75-77):
`self.data[record.name.value] = record`, never raising. -/
def AddressBook.add_record (b : AddressBook) (record : Record) : AddressBook :=
  ⟨dictSet b.data record.name.value record⟩

/-- Embeds `AddressBook.find` (source lines 79-81): `self.data.get(name, None)`. -/
def AddressBook.find (b : AddressBook) (name : String) : Option Record :=
  (b.data.find? (fun kv => kv.1 == name)).map (fun kv => kv.2)

/-- Embeds `AddressBook.delete` (source lines 83-88): `del self.data[name]`
when the key is present, else `ValueError`. -/
def AddressBook.delete (b : AddressBook) (name : String) :
    Except PyErr Unit × AddressBook :=
  if b.data.any (fun kv => kv.1 == name) then
    (.ok (), ⟨b.data.filter (fun kv => !(kv.1 == name))⟩)
  else (.error (.valueError "Record not found"), b)

/-- Embeds `AddressBook.__str__` (source lines 90-92): the records joined
by newline in iteration order. -/
def AddressBook.render (b : AddressBook) : String :=
  String.intercalate "\n" (b.data.map (fun kv => kv.2.render))

/-- Number of entries of the book (`len`). -/
def AddressBook.size (b : AddressBook) : Nat :=
  b.data.length

/-- Embeds the `input_error` decorator (source lines 95-109): converts each
caught exception kind to its user-visible message. -/
def input_error (r : Except PyErr String) : String :=
  match r with
  | .ok s => s
  | .error (.keyError _) => "Error: Contact not found."
  | .error (.valueError m) => "Error: " ++ m
  | .error (.indexError _) => "Error: Invalid command format."

/-- Embeds `add_contact` before decoration (source lines 123-140).  The
arity check `len(args) != 2` and the tuple unpacking are rendered as one
match; the raised messages are those of the source. -/
def add_contact (args : List String) (contacts : AddressBook) :
    Except PyErr String × AddressBook :=
  match args with
  | [name, phone] =>
    match contacts.find name with
    | some _ => (.error (.valueError "Contact already exists."), contacts)
    | none =>
      match Record.create name with
      | .error e => (.error e, contacts)
      | .ok record =>
        match record.add_phone phone with
        | (.error e, _) => (.error e, contacts)
        | (.ok _, record1) => (.ok "Contact added.", contacts.add_record record1)
  | _ => (.error (.valueError "Command requires exactly 2 arguments (name and phone)."), contacts)

/-- Embeds `change_contact` before decoration (source lines 143-161).
Reading `record.phones[0]` on an empty list raises `IndexError`.  The
record object is mutated in place in Python, so the book reflects the
partial mutation even when `edit_phone` raises; the embedding writes the
post-state record back under the same key. -/
def change_contact (args : List String) (contacts : AddressBook) :
    Except PyErr String × AddressBook :=
  match args with
  | [name, new_phone] =>
    match contacts.find name with
    | some record =>
      match record.phones with
      | [] => (.error (.indexError "list index out of range"), contacts)
      | p :: _ =>
        match record.edit_phone p.value new_phone with
        | (.ok _, record1) => (.ok "Contact updated.", ⟨dictSet contacts.data name record1⟩)
        | (.error e, record1) => (.error e, ⟨dictSet contacts.data name record1⟩)
    | none => (.error (.keyError "Contact not found."), contacts)
  | _ => (.error (.valueError "Command requires exactly 2 arguments (name and new phone)."), contacts)

/-- Embeds `show_phone` before decoration (source lines 164-180): the wrong
arity raises `IndexError` here, per the source. -/
def show_phone (args : List String) (contacts : AddressBook) :
    Except PyErr String × AddressBook :=
  match args with
  | [name] =>
    match contacts.find name with
    | some record =>
      (.ok (name ++ ": " ++ String.intercalate ", " (record.phones.map Phone.value)), contacts)
    | none => (.error (.keyError "Contact not found."), contacts)
  | _ => (.error (.indexError "Command requires exactly 1 argument (name)."), contacts)

/-- Embeds `show_all` before decoration (source lines 183-194): an empty
book prints the fixed message, otherwise `str(contacts)`. -/
def show_all (contacts : AddressBook) : Except PyErr String × AddressBook :=
  if contacts.data.isEmpty then (.ok "No contacts found.", contacts)
  else (.ok contacts.render, contacts)

/-- The decorated `add_contact` as `main` calls it. -/
def add_contactW (args : List String) (contacts : AddressBook) : String × AddressBook :=
  let r := add_contact args contacts
  (input_error r.1, r.2)

/-- The decorated `change_contact` as `main` calls it. -/
def change_contactW (args : List String) (contacts : AddressBook) : String × AddressBook :=
  let r := change_contact args contacts
  (input_error r.1, r.2)

/-- The decorated `show_phone` as `main` calls it. -/
def show_phoneW (args : List String) (contacts : AddressBook) : String × AddressBook :=
  let r := show_phone args contacts
  (input_error r.1, r.2)

/-- The decorated `show_all` as `main` calls it. -/
def show_allW (contacts : AddressBook) : String × AddressBook :=
  let r := show_all contacts
  (input_error r.1, r.2)

/-- Outcome of one iteration of the `while True` loop of `main`:
`crash` when an exception escapes (the unpacking in `parse_input`),
`quit` when the loop breaks on close and exit, otherwise the printed
message and the book afterwards. -/
inductive StepRes where
  | crash : StepRes
  | quit (msg : String) : StepRes
  | cont (msg : String) (book : AddressBook) : StepRes
deriving DecidableEq, Repr

/-- Embeds one iteration of `main` (source lines 197-223): parse the line,
then dispatch on the command word. -/
def stepLine (contacts : AddressBook) (user_input : String) : StepRes :=
  match parse_input user_input with
  | none => .crash
  | some (command, args) =>
    if command = "close" ∨ command = "exit" then .quit "Good bye!"
    else if command = "hello" then .cont "How can I help you?" contacts
    else if command = "add" then
      let r := add_contactW args contacts
      .cont r.1 r.2
    else if command = "change" then
      let r := change_contactW args contacts
      .cont r.1 r.2
    else if command = "phone" then
      let r := show_phoneW args contacts
      .cont r.1 r.2
    else if command = "all" then
      let r := show_allW contacts
      .cont r.1 r.2
    else if command = "help" then
      .cont "Available commands: hello, add, change, phone, all, close, exit" contacts
    else .cont "Invalid command. Type 'help' to see the list of available commands." contacts

/-! ## Helper lemmas -/

theorem char_le_iff_toNat {a b : Char} : a ≤ b ↔ a.toNat ≤ b.toNat :=
  Iff.trans Char.le_def (Iff.trans UInt32.le_def BitVec.le_def)

theorem pyCharIsdigit_of_ascii {c : Char} (h : '0' ≤ c ∧ c ≤ '9') :
    pyCharIsdigit c = true := by
  have h0 : ('0' : Char).toNat = 48 := by decide
  have h9 : ('9' : Char).toNat = 57 := by decide
  have hlo : 48 ≤ c.toNat := by
    have := char_le_iff_toNat.mp h.1
    rw [h0] at this
    exact this
  have hhi : c.toNat ≤ 57 := by
    have := char_le_iff_toNat.mp h.2
    rw [h9] at this
    exact this
  unfold pyCharIsdigit
  apply List.any_eq_true.mpr
  refine ⟨(48, 57), ?_, ?_⟩
  · unfold pyDigitRanges
    exact List.mem_cons_self _ _
  · simp [hlo, hhi]

theorem validate_phone_iff (s : String) :
    Phone.validate_phone s = true ↔
      (s.length = 10 ∧ ∀ c ∈ s.data, pyCharIsdigit c = true) := by
  obtain ⟨l⟩ := s
  have hd : ({ data := l } : String).data = l := rfl
  have hl : ({ data := l } : String).length = l.length := rfl
  unfold Phone.validate_phone pyStrIsdigit
  rw [hd, hl]
  simp only [Bool.and_eq_true, Bool.not_eq_true', List.isEmpty_eq_false,
    List.all_eq_true, beq_iff_eq]
  constructor
  · rintro ⟨⟨-, hd⟩, hl⟩
    exact ⟨hl, hd⟩
  · rintro ⟨hl, hd⟩
    refine ⟨⟨?_, hd⟩, hl⟩
    intro hnil
    simp [hnil] at hl

/-! ## C1 -/

/-- C1 counterexample: the claim says `Phone.create` succeeds only on
strings of 10 decimal digits `0`-`9` and fails with `InvalidPhone` on
any other string.  The 10-character string of superscript-two characters
(scalar value 178, accepted by Python `str.isdigit`) is accepted by the
program although none of its characters is a decimal digit `0`-`9`. -/
theorem phone_create_accepts_nonascii_digits :
    Phone.create "²²²²²²²²²²" = .ok ⟨"²²²²²²²²²²"⟩ ∧
    ∀ c ∈ ("²²²²²²²²²²" : String).data, ¬('0' ≤ c ∧ c ≤ '9') := by
  decide

/-- C1 amended: `Phone.create s` succeeds (yielding the phone wrapping
`s` verbatim) exactly when `s` consists of exactly 10 characters each of
which Python `str.isdigit` accepts — the Unicode digit characters, which
include the decimal digits `0`-`9` but also non-ASCII digits such as the
superscripts — so in particular every 10-character string of `0`-`9`
digits succeeds; on every other string it fails with the `InvalidPhone`
error (`ValueError "Phone number must be 10 digits"`).  No separator is
stripped: the characterization is in terms of the raw characters of `s`.
Determinism is immediate because the embedding of `Phone.__init__` is a
function of its input. -/
theorem Phone_create_python_digits (s : String) :
    (Phone.create s = .ok ⟨s⟩ ↔
       (s.length = 10 ∧ ∀ c ∈ s.data, pyCharIsdigit c = true)) ∧
    ((s.length = 10 ∧ ∀ c ∈ s.data, '0' ≤ c ∧ c ≤ '9') →
       Phone.create s = .ok ⟨s⟩) ∧
    (¬ (s.length = 10 ∧ ∀ c ∈ s.data, pyCharIsdigit c = true) →
       Phone.create s = .error (.valueError "Phone number must be 10 digits")) := by
  unfold Phone.create
  rcases hv : Phone.validate_phone s with _ | _
  · rw [if_neg (by simp [hv])]
    refine ⟨?_, ?_, fun _ => rfl⟩
    · constructor
      · intro h
        cases h
      · intro h
        rw [← validate_phone_iff] at h
        rw [hv] at h
        cases h
    · intro h
      exfalso
      have hval : Phone.validate_phone s = true :=
        (validate_phone_iff s).mpr
          ⟨h.1, fun c hc => pyCharIsdigit_of_ascii (h.2 c hc)⟩
      rw [hv] at hval
      cases hval
  · rw [if_pos (by simp)]
    rw [validate_phone_iff] at hv
    exact ⟨iff_of_true rfl hv, fun _ => rfl, fun h => absurd hv h⟩

/-- C1 amended witness: a 10-digit ASCII string is accepted through the
`0`-`9` conjunct, a 10-character Arabic-Indic digit string is accepted
through the full characterization, and a string with separators is
rejected. -/
theorem Phone_create_python_digits_witness :
    Phone.create "0123456789" = .ok ⟨"0123456789"⟩ ∧
    Phone.create "٠١٢٣٤٥٦٧٨٩" = .ok ⟨"٠١٢٣٤٥٦٧٨٩"⟩ ∧
    Phone.create "123-456-78" = .error (.valueError "Phone number must be 10 digits") :=
  ⟨(Phone_create_python_digits "0123456789").2.1 (by decide),
   (Phone_create_python_digits "٠١٢٣٤٥٦٧٨٩").1.mpr (by decide),
   (Phone_create_python_digits "123-456-78").2.2 (by decide)⟩

theorem find_phone_value {l : List Phone} {s : String} {p : Phone}
    (h : l.find? (fun q => q.value == s) = some p) : p.value = s := by
  have := List.find?_some h
  simpa using this

theorem find_phone_isSome {l : List Phone} {s : String} {p : Phone}
    (hp : p ∈ l) (hv : p.value = s) :
    ∃ q, l.find? (fun q => q.value == s) = some q := by
  rcases hq : l.find? (fun q => q.value == s) with _ | q
  · rw [List.find?_eq_none] at hq
    exact absurd (by simp [hv]) (hq p hp)
  · exact ⟨q, hq⟩

theorem erase_of_find_eq_eraseP {l : List Phone} {s : String} {p : Phone}
    (h : l.find? (fun q => q.value == s) = some p) :
    l.erase p = l.eraseP (fun q => q.value == s) := by
  induction l with
  | nil => simp at h
  | cons a l ih =>
    rcases ha : (a.value == s) with _ | _
    · rw [List.find?_cons_of_neg _ (by simp [ha])] at h
      have hps : p.value = s := find_phone_value h
      have hap : ¬ (a == p) := by
        simp only [beq_iff_eq]
        intro hq
        rw [hq, hps] at ha
        simp at ha
      rw [List.erase_cons_tail (by simpa using hap),
        List.eraseP_cons_of_neg (by simp [ha]), ih h]
    · rw [List.find?_cons_of_pos _ (by simp [ha])] at h
      obtain rfl : a = p := by injection h
      rw [List.erase_cons_head, List.eraseP_cons_of_pos (by simp [ha])]

/-! ## C7 -/

/-- C7: when no phone of the record has stored value `s`,
`remove_phone s` fails with the `PhoneNotFound` error
(`ValueError "Phone number not found"`) and the record, in particular its
phone list, is unchanged; when some phone matches, `remove_phone s`
succeeds and removes exactly the first phone in list order whose value is
`s` (that is what `List.eraseP` performs). -/
theorem remove_phone_spec (r : Record) (s : String) :
    ((∀ p ∈ r.phones, p.value ≠ s) →
      r.remove_phone s = (.error (.valueError "Phone number not found"), r)) ∧
    (∀ p, p ∈ r.phones → p.value = s →
      (r.remove_phone s).1 = .ok () ∧
      (r.remove_phone s).2.phones = r.phones.eraseP (fun q => q.value == s)) := by
  constructor
  · intro h
    have hf : r.phones.find? (fun q => q.value == s) = none := by
      rw [List.find?_eq_none]
      intro p hp
      simp [h p hp]
    unfold Record.remove_phone Record.find_phone
    rw [hf]
  · intro p hp hv
    obtain ⟨q, hq⟩ := find_phone_isSome hp hv
    unfold Record.remove_phone Record.find_phone
    rw [hq]
    exact ⟨rfl, erase_of_find_eq_eraseP hq⟩

/-- C7 witness: on a concrete record, removing an absent value fails and
changes nothing; removing a present value removes the first match. -/
theorem remove_phone_spec_witness :
    Record.remove_phone ⟨⟨"ann"⟩, [⟨"1111111111"⟩, ⟨"2222222222"⟩, ⟨"1111111111"⟩]⟩
        "3333333333" =
      (.error (.valueError "Phone number not found"),
        ⟨⟨"ann"⟩, [⟨"1111111111"⟩, ⟨"2222222222"⟩, ⟨"1111111111"⟩]⟩) ∧
    ((Record.remove_phone ⟨⟨"ann"⟩, [⟨"1111111111"⟩, ⟨"2222222222"⟩, ⟨"1111111111"⟩]⟩
        "1111111111").1 = .ok () ∧
     (Record.remove_phone ⟨⟨"ann"⟩, [⟨"1111111111"⟩, ⟨"2222222222"⟩, ⟨"1111111111"⟩]⟩
        "1111111111").2.phones =
       [⟨"1111111111"⟩, ⟨"2222222222"⟩, ⟨"1111111111"⟩].eraseP
         (fun q => q.value == "1111111111")) :=
  ⟨(remove_phone_spec ⟨⟨"ann"⟩, [⟨"1111111111"⟩, ⟨"2222222222"⟩, ⟨"1111111111"⟩]⟩
      "3333333333").1 (by decide),
   (remove_phone_spec ⟨⟨"ann"⟩, [⟨"1111111111"⟩, ⟨"2222222222"⟩, ⟨"1111111111"⟩]⟩
      "1111111111").2 ⟨"1111111111"⟩ (by decide) rfl⟩

/-! ## C2 -/

/-- C2 counterexample: the claim asserts that after a failed
`edit_phone(old, new)` the record no longer contains `old`, for every
record containing `old`.  A record holding `old` twice is a counterexample:
the call fails with the `InvalidPhone` error as claimed, but only the first
occurrence was removed, so the record still contains `old`. -/
theorem edit_phone_duplicate_counterexample :
    (Record.edit_phone ⟨⟨"bob"⟩, [⟨"1234567890"⟩, ⟨"1234567890"⟩]⟩ "1234567890" "12").1 =
      .error (.valueError "Phone number must be 10 digits") ∧
    "1234567890" ∈
      ((Record.edit_phone ⟨⟨"bob"⟩, [⟨"1234567890"⟩, ⟨"1234567890"⟩]⟩
          "1234567890" "12").2.phones.map Phone.value) := by
  decide

/-- C2 amended: for every record containing a phone equal to `old_phone`
and every `new_phone` failing validation, `edit_phone` fails with the
`InvalidPhone` error and afterwards exactly the first occurrence of
`old_phone` has been removed and nothing was added (so a record that
contained `old_phone` exactly once no longer contains it); the removed
phone is not restored — the edit is not atomic. -/
theorem edit_phone_nonatomic (r : Record) (old_phone new_phone : String)
    (hmem : ∃ p ∈ r.phones, p.value = old_phone)
    (hnew : Phone.validate_phone new_phone = false) :
    (r.edit_phone old_phone new_phone).1 =
      .error (.valueError "Phone number must be 10 digits") ∧
    (r.edit_phone old_phone new_phone).2.phones =
      r.phones.eraseP (fun q => q.value == old_phone) := by
  obtain ⟨p, hp, hv⟩ := hmem
  obtain ⟨q, hq⟩ := find_phone_isSome hp hv
  have hrm : r.remove_phone old_phone = (.ok (), { r with phones := r.phones.erase q }) := by
    unfold Record.remove_phone Record.find_phone
    rw [hq]
  unfold Record.edit_phone
  unfold Record.find_phone
  rw [hq, hrm]
  unfold Record.add_phone Phone.create
  rw [if_neg (by simp [hnew])]
  exact ⟨rfl, erase_of_find_eq_eraseP hq⟩

/-- C2 witness: a concrete record holding the old phone exactly once,
edited to an invalid phone: the call fails with the invalid-phone error
and the phone list afterwards is the old list with the first (hence only)
occurrence removed. -/
theorem edit_phone_nonatomic_witness :
    (Record.edit_phone ⟨⟨"ann"⟩, [⟨"1234567890"⟩]⟩ "1234567890" "12").1 =
      .error (.valueError "Phone number must be 10 digits") ∧
    (Record.edit_phone ⟨⟨"ann"⟩, [⟨"1234567890"⟩]⟩ "1234567890" "12").2.phones =
      [(⟨"1234567890"⟩ : Phone)].eraseP (fun q => q.value == "1234567890") :=
  edit_phone_nonatomic ⟨⟨"ann"⟩, [⟨"1234567890"⟩]⟩ "1234567890" "12"
    ⟨⟨"1234567890"⟩, by decide, rfl⟩ (by decide)

theorem toNat_ofNat_valid (n : Nat) (h : n.isValidChar) : (Char.ofNat n).toNat = n := by
  rw [Char.ofNat, dif_pos h]
  rfl

theorem isWhitespace_toLower (c : Char) :
    (Char.toLower c).isWhitespace = c.isWhitespace := by
  by_cases hu : 65 ≤ c.toNat ∧ c.toNat ≤ 90
  · have hval : (Char.toLower c).toNat = c.toNat + 32 := by
      unfold Char.toLower
      rw [if_pos hu]
      exact toNat_ofNat_valid _ (Or.inl (by omega))
    have hsp : Char.toNat ' ' = 32 := by decide
    have htb : Char.toNat '\t' = 9 := by decide
    have hcr : Char.toNat '\r' = 13 := by decide
    have hnl : Char.toNat '\n' = 10 := by decide
    have l1 : Char.toLower c ≠ ' ' := fun h => by
      have := congrArg Char.toNat h
      rw [hval, hsp] at this
      omega
    have l2 : Char.toLower c ≠ '\t' := fun h => by
      have := congrArg Char.toNat h
      rw [hval, htb] at this
      omega
    have l3 : Char.toLower c ≠ '\r' := fun h => by
      have := congrArg Char.toNat h
      rw [hval, hcr] at this
      omega
    have l4 : Char.toLower c ≠ '\n' := fun h => by
      have := congrArg Char.toNat h
      rw [hval, hnl] at this
      omega
    have r1 : c ≠ ' ' := fun h => absurd (h ▸ hu) (by decide)
    have r2 : c ≠ '\t' := fun h => absurd (h ▸ hu) (by decide)
    have r3 : c ≠ '\r' := fun h => absurd (h ▸ hu) (by decide)
    have r4 : c ≠ '\n' := fun h => absurd (h ▸ hu) (by decide)
    simp [Char.isWhitespace, l1, l2, l3, l4, r1, r2, r3, r4]
  · have : Char.toLower c = c := by
      unfold Char.toLower
      rw [if_neg hu]
    rw [this]

theorem pyWordsAux_map_toLower (l : List Char) :
    ∀ acc, pyWordsAux (pyLower l) (pyLower acc) = (pyWordsAux l acc).map pyLower := by
  induction l with
  | nil =>
    intro acc
    cases acc with
    | nil => rfl
    | cons a as =>
      show (if (pyLower (a :: as)).isEmpty then [] else [(pyLower (a :: as)).reverse]) =
        List.map pyLower (if (a :: as).isEmpty then [] else [(a :: as).reverse])
      simp [pyLower, List.map_reverse]
  | cons c cs ih =>
    intro acc
    have lhs0 : pyWordsAux (pyLower (c :: cs)) (pyLower acc) =
        if (Char.toLower c).isWhitespace then
          (if (pyLower acc).isEmpty then pyWordsAux (pyLower cs) []
           else (pyLower acc).reverse :: pyWordsAux (pyLower cs) [])
        else pyWordsAux (pyLower cs) (Char.toLower c :: pyLower acc) := rfl
    have rhs0 : pyWordsAux (c :: cs) acc =
        if c.isWhitespace then
          (if acc.isEmpty then pyWordsAux cs [] else acc.reverse :: pyWordsAux cs [])
        else pyWordsAux cs (c :: acc) := rfl
    rw [lhs0, rhs0, isWhitespace_toLower]
    by_cases hws : c.isWhitespace = true
    · rw [if_pos hws, if_pos hws]
      cases acc with
      | nil =>
        rw [if_pos (by rfl), if_pos (by rfl)]
        exact ih []
      | cons b bs =>
        rw [if_neg (by simp [pyLower]), if_neg (by simp)]
        rw [List.map_cons]
        congr 1
        · exact (List.map_reverse Char.toLower (b :: bs)).symm
        · exact ih []
    · rw [if_neg hws, if_neg hws]
      exact ih (c :: acc)

theorem pyWords_map_toLower (l : List Char) :
    pyWords (pyLower l) = (pyWords l).map pyLower :=
  pyWordsAux_map_toLower l []

/-! ## C4 amended -/

/-- C4 amended: the parser lowercases the entire stripped input line
before splitting, the command word and every argument alike: whenever a
line parses, each returned token — the command and each argument — is the
lowercase folding of the corresponding token the user typed, so names
are stored and compared in lowercased form, not exactly as typed
(phone digits are unaffected by case folding). -/
theorem parse_input_lowercases_whole_line (s cmd : String) (args : List String)
    (h : parse_input s = some (cmd, args)) :
    ∃ raw rawargs, pyWords (pyStrip s.data) = raw :: rawargs ∧
      cmd = ⟨pyLower raw⟩ ∧ args = rawargs.map (fun w => ⟨pyLower w⟩) := by
  unfold parse_input at h
  rw [pyWords_map_toLower] at h
  rcases hw : pyWords (pyStrip s.data) with _ | ⟨raw, rawargs⟩
  · rw [hw] at h
    cases h
  · rw [hw, List.map_cons] at h
    refine ⟨raw, rawargs, rfl, ?_, ?_⟩
    · have := congrArg (fun o => Option.map Prod.fst o) h
      simpa using this.symm
    · have := congrArg (fun o => Option.map Prod.snd o) h
      simp at this
      rw [← this]
      rfl

/-- C4 amended witness: on the line `add Kate 0123456789` the raw tokens
are recovered and each parsed token is the lowercased raw token. -/
theorem parse_input_lowercases_whole_line_witness :
    ∃ raw rawargs, pyWords (pyStrip ("add Kate 0123456789").data) = raw :: rawargs ∧
      ("add" : String) = ⟨pyLower raw⟩ ∧
      (["kate", "0123456789"] : List String) = rawargs.map (fun w => ⟨pyLower w⟩) :=
  parse_input_lowercases_whole_line "add Kate 0123456789" "add" ["kate", "0123456789"]
    (by decide)

/-! ## C4 counterexample -/

/-- C4 counterexample: the claim says the parser lowercases only the
command word and leaves the arguments unchanged.  On the concrete line
`add Kate 0123456789` the parser returns the argument `kate`, not the
typed argument `Kate`: the whole line is lowercased before splitting. -/
theorem parse_input_lowercases_arguments :
    parse_input "add Kate 0123456789" = some ("add", ["kate", "0123456789"]) ∧
    ("kate" : String) ≠ "Kate" := by
  decide

theorem exists_nonws_dropWhile :
    ∀ l : List Char, (∃ c ∈ l, c.isWhitespace = false) →
      ∃ c ∈ l.dropWhile Char.isWhitespace, c.isWhitespace = false := by
  intro l
  induction l with
  | nil =>
    rintro ⟨c, hc, -⟩
    cases hc
  | cons a l ih =>
    rintro ⟨c, hc, hws⟩
    rw [List.dropWhile_cons]
    by_cases ha : a.isWhitespace = true
    · rw [if_pos ha]
      apply ih
      rcases List.mem_cons.mp hc with rfl | hc2
      · rw [hws] at ha
        cases ha
      · exact ⟨c, hc2, hws⟩
    · rw [if_neg ha]
      exact ⟨c, hc, hws⟩

theorem exists_nonws_pyStrip {l : List Char} (h : ∃ c ∈ l, c.isWhitespace = false) :
    ∃ c ∈ pyStrip l, c.isWhitespace = false := by
  unfold pyStrip
  have h1 := exists_nonws_dropWhile l h
  have h2 : ∃ c ∈ (l.dropWhile Char.isWhitespace).reverse, c.isWhitespace = false := by
    obtain ⟨c, hc, hw⟩ := h1
    exact ⟨c, List.mem_reverse.mpr hc, hw⟩
  obtain ⟨c, hc, hw⟩ := exists_nonws_dropWhile _ h2
  exact ⟨c, List.mem_reverse.mpr hc, hw⟩

theorem pyWordsAux_ne_nil_of_acc :
    ∀ l acc : List Char, acc ≠ [] → pyWordsAux l acc ≠ [] := by
  intro l
  induction l with
  | nil =>
    intro acc hacc
    show (if acc.isEmpty then [] else [acc.reverse]) ≠ []
    rw [if_neg (by simpa using hacc)]
    simp
  | cons c cs ih =>
    intro acc hacc
    show (if c.isWhitespace then
        (if acc.isEmpty then pyWordsAux cs [] else acc.reverse :: pyWordsAux cs [])
      else pyWordsAux cs (c :: acc)) ≠ []
    by_cases hws : c.isWhitespace = true
    · rw [if_pos hws, if_neg (by simpa using hacc)]
      simp
    · rw [if_neg hws]
      exact ih (c :: acc) (by simp)

theorem pyWordsAux_ne_nil :
    ∀ l acc : List Char, (∃ c ∈ l, c.isWhitespace = false) → pyWordsAux l acc ≠ [] := by
  intro l
  induction l with
  | nil =>
    rintro acc ⟨c, hc, -⟩
    cases hc
  | cons a cs ih =>
    rintro acc ⟨c, hc, hws⟩
    show (if a.isWhitespace then
        (if acc.isEmpty then pyWordsAux cs [] else acc.reverse :: pyWordsAux cs [])
      else pyWordsAux cs (a :: acc)) ≠ []
    by_cases ha : a.isWhitespace = true
    · rw [if_pos ha]
      have hcs : ∃ c ∈ cs, c.isWhitespace = false := by
        rcases List.mem_cons.mp hc with rfl | hc2
        · rw [hws] at ha
          cases ha
        · exact ⟨c, hc2, hws⟩
      by_cases hacc : acc.isEmpty = true
      · rw [if_pos hacc]
        exact ih [] hcs
      · rw [if_neg hacc]
        simp
    · rw [if_neg ha]
      exact pyWordsAux_ne_nil_of_acc cs (a :: acc) (by simp)

/-! ## C5 amended -/

/-- C5 amended: for every input line containing at least one
non-whitespace character, the loop iteration never crashes: it either
terminates cleanly (on `close` and `exit`) or prints a message and
continues, every handler error being caught by the `input_error` wrapper
at the dispatch point and unrecognized commands producing the fixed
guidance message.  The restriction to non-blank lines is forced by the
counterexample: an empty or whitespace-only line makes the unpacking in
`parse_input` raise an uncaught `ValueError` and the process crashes. -/
theorem stepLine_no_crash_on_nonblank (b : AddressBook) (s : String)
    (h : ∃ c ∈ s.data, c.isWhitespace = false) :
    (∃ msg, stepLine b s = .quit msg) ∨ (∃ msg b2, stepLine b s = .cont msg b2) := by
  have h1 := exists_nonws_pyStrip h
  have h2 : ∃ c ∈ pyLower (pyStrip s.data), c.isWhitespace = false := by
    obtain ⟨c, hc, hw⟩ := h1
    refine ⟨Char.toLower c, List.mem_map.mpr ⟨c, hc, rfl⟩, ?_⟩
    rw [isWhitespace_toLower]
    exact hw
  have h3 : pyWords (pyLower (pyStrip s.data)) ≠ [] :=
    pyWordsAux_ne_nil _ [] h2
  rcases hw : pyWords (pyLower (pyStrip s.data)) with _ | ⟨cmd, args⟩
  · exact absurd hw h3
  · have hp : parse_input s = some (⟨cmd⟩, args.map fun w => ⟨w⟩) := by
      unfold parse_input
      rw [hw]

    have hnc : stepLine b s ≠ .crash := by
      unfold stepLine
      simp only [hp]
      split_ifs <;> simp
    rcases hres : stepLine b s with _ | msg | ⟨msg, b2⟩
    · exact absurd hres hnc
    · exact Or.inl ⟨msg, rfl⟩
    · exact Or.inr ⟨msg, b2, rfl⟩

/-- C5 amended witness: the non-blank line `hello` on the empty book
continues the loop with the greeting message. -/
theorem stepLine_no_crash_on_nonblank_witness :
    (∃ msg, stepLine ⟨[]⟩ "hello" = .quit msg) ∨
    (∃ msg b2, stepLine ⟨[]⟩ "hello" = .cont msg b2) :=
  stepLine_no_crash_on_nonblank ⟨[]⟩ "hello" ⟨'h', by decide, by decide⟩

/-! ## C5 counterexample -/

/-- C5 counterexample: the claim says every input line is handled without
crashing the process.  On the empty line (and on a whitespace-only line)
the unpacking inside `parse_input` raises an uncaught `ValueError` and
the loop iteration crashes. -/
theorem stepLine_crashes_on_blank_line :
    stepLine ⟨[]⟩ "" = .crash ∧ stepLine ⟨[]⟩ "   " = .crash := by
  decide

theorem dictSet_map_find_self (k : String) (v : Record) :
    ∀ l : List (String × Record), l.any (fun kv => kv.1 == k) = true →
      (l.map (fun kv => if kv.1 == k then (k, v) else kv)).find?
        (fun kv => kv.1 == k) = some (k, v) := by
  intro l
  induction l with
  | nil => intro h; simp at h
  | cons a l ih =>
    intro h
    rcases ha : (a.1 == k) with _ | _
    · rw [List.map_cons, if_neg (by simp_all), List.find?_cons_of_neg _ (by simp [ha])]
      apply ih
      simpa only [List.any_cons, ha, Bool.false_or] using h
    · rw [List.map_cons, if_pos (by simp_all), List.find?_cons_of_pos _ (by simp)]

theorem dictSet_map_find_other (k k' : String) (v : Record) (hk : k' ≠ k) :
    ∀ l : List (String × Record),
      (l.map (fun kv => if kv.1 == k then (k, v) else kv)).find?
        (fun kv => kv.1 == k') = l.find? (fun kv => kv.1 == k') := by
  intro l
  induction l with
  | nil => rfl
  | cons a l ih =>
    rcases ha : (a.1 == k) with _ | _
    · rw [List.map_cons, if_neg (by simp_all)]
      rcases ha' : (a.1 == k') with _ | _
      · rw [List.find?_cons_of_neg _ (by simp [ha']),
          List.find?_cons_of_neg _ (by simp [ha']), ih]
      · rw [List.find?_cons_of_pos _ (by simp [ha']),
          List.find?_cons_of_pos _ (by simp [ha'])]
    · have hak : a.1 = k := by simpa using ha
      rw [List.map_cons, if_pos (by simp [ha])]
      rw [List.find?_cons_of_neg _ (by simp [Ne.symm hk]),
        List.find?_cons_of_neg _ (by simp [hak, Ne.symm hk]), ih]

theorem find?_append_of_none {α : Type} {p : α → Bool} {l1 l2 : List α}
    (h : l1.find? p = none) : (l1 ++ l2).find? p = l2.find? p := by
  induction l1 with
  | nil => rfl
  | cons a l ih =>
    rcases hpa : p a with _ | _
    · rw [List.find?_cons_of_neg _ (by simp [hpa])] at h
      rw [List.cons_append, List.find?_cons_of_neg _ (by simp [hpa]), ih h]
    · rw [List.find?_cons_of_pos _ hpa] at h
      cases h

theorem find?_append_of_some {α : Type} {p : α → Bool} {l1 l2 : List α} {x : α}
    (h : l1.find? p = some x) : (l1 ++ l2).find? p = some x := by
  induction l1 with
  | nil => cases h
  | cons a l ih =>
    rcases hpa : p a with _ | _
    · rw [List.find?_cons_of_neg _ (by simp [hpa])] at h
      rw [List.cons_append, List.find?_cons_of_neg _ (by simp [hpa])]
      exact ih h
    · rw [List.find?_cons_of_pos _ hpa] at h
      rw [List.cons_append, List.find?_cons_of_pos _ hpa]
      exact h

theorem dictSet_find_self (l : List (String × Record)) (k : String) (v : Record) :
    (dictSet l k v).find? (fun kv => kv.1 == k) = some (k, v) := by
  unfold dictSet
  split
  · exact dictSet_map_find_self k v l (by assumption)
  · rename_i h
    have hfalse : l.any (fun kv => kv.1 == k) = false := by
      rcases hval : l.any (fun kv => kv.1 == k) with _ | _
      · rfl
      · exact absurd hval h
    have hnone : l.find? (fun kv => kv.1 == k) = none := by
      rw [List.find?_eq_none]
      intro x hx
      exact List.any_eq_false.mp hfalse x hx
    rw [find?_append_of_none hnone, List.find?_cons_of_pos _ (by simp)]

theorem dictSet_find_other (l : List (String × Record)) (k k' : String) (v : Record)
    (hk : k' ≠ k) :
    (dictSet l k v).find? (fun kv => kv.1 == k') = l.find? (fun kv => kv.1 == k') := by
  unfold dictSet
  split
  · exact dictSet_map_find_other k k' v hk l
  · rcases hf : l.find? (fun kv => kv.1 == k') with _ | x
    · rw [find?_append_of_none hf, hf, List.find?_cons_of_neg _ (by simp [Ne.symm hk])]
      rfl
    · rw [find?_append_of_some hf, hf]

/-! ## C3 -/

/-- C3: the primitive `add_record` never raises (it is a total function in
this embedding) and inserts the record keyed by its own name value,
unconditionally overwriting any existing entry under that key while
leaving every other key untouched; the `add` command path instead, when a
record for the given name already exists, fails with the message
`Error: Contact already exists.` — which contains `already exists` — and
leaves the book unchanged. -/
theorem add_record_overwrites_add_command_rejects (b : AddressBook) (r : Record)
    (name phone k : String) :
    ((b.add_record r).find r.name.value = some r) ∧
    (k ≠ r.name.value → (b.add_record r).find k = b.find k) ∧
    ((b.find name).isSome →
      add_contactW [name, phone] b = ("Error: Contact already exists.", b)) ∧
    List.IsInfix "already exists".data "Error: Contact already exists.".data := by
  refine ⟨?_, ?_, ?_, ?_⟩
  · show ((dictSet b.data r.name.value r).find? (fun kv => kv.1 == r.name.value)).map
      (fun kv => kv.2) = some r
    rw [dictSet_find_self]
    rfl
  · intro hk
    show ((dictSet b.data r.name.value r).find? (fun kv => kv.1 == k)).map
      (fun kv => kv.2) = _
    rw [dictSet_find_other b.data r.name.value k r hk]
    rfl
  · intro h
    obtain ⟨rec, hrec⟩ := Option.isSome_iff_exists.mp h
    simp only [add_contactW, add_contact, hrec]
    rfl
  · exact ⟨"Error: Contact ".data, ".".data, by decide⟩

/-- C3 witness: on a concrete book holding `john`, adding a record is
keyed by its name and leaves the other key alone, and the `add` command
for the existing `john` fails with the unchanged book. -/
theorem add_record_overwrites_add_command_rejects_witness :
    (AddressBook.add_record ⟨[("john", ⟨⟨"john"⟩, [⟨"1234567890"⟩]⟩)]⟩
        ⟨⟨"jane"⟩, []⟩).find "jane" = some ⟨⟨"jane"⟩, []⟩ ∧
    (AddressBook.add_record ⟨[("john", ⟨⟨"john"⟩, [⟨"1234567890"⟩]⟩)]⟩
        ⟨⟨"jane"⟩, []⟩).find "john" =
      AddressBook.find ⟨[("john", ⟨⟨"john"⟩, [⟨"1234567890"⟩]⟩)]⟩ "john" ∧
    add_contactW ["john", "0000000000"] ⟨[("john", ⟨⟨"john"⟩, [⟨"1234567890"⟩]⟩)]⟩ =
      ("Error: Contact already exists.", ⟨[("john", ⟨⟨"john"⟩, [⟨"1234567890"⟩]⟩)]⟩) :=
  ⟨(add_record_overwrites_add_command_rejects ⟨[("john", ⟨⟨"john"⟩, [⟨"1234567890"⟩]⟩)]⟩
      ⟨⟨"jane"⟩, []⟩ "john" "0000000000" "jane").1,
   (add_record_overwrites_add_command_rejects ⟨[("john", ⟨⟨"john"⟩, [⟨"1234567890"⟩]⟩)]⟩
      ⟨⟨"jane"⟩, []⟩ "john" "0000000000" "john").2.1 (by decide),
   (add_record_overwrites_add_command_rejects ⟨[("john", ⟨⟨"john"⟩, [⟨"1234567890"⟩]⟩)]⟩
      ⟨⟨"jane"⟩, []⟩ "john" "0000000000" "jane").2.2.1 (by decide)⟩

/-! ## C8 -/

/-- The Directory invariant of the spec: every entry is keyed by the name
value of the record it holds. -/
def KeyedByName (b : AddressBook) : Prop :=
  ∀ kv ∈ b.data, kv.1 = kv.2.name.value

/-- Books reachable from the empty book by the documented operations.
`find` does not mutate the book, so it contributes no step. -/
inductive ReachableBook : AddressBook → Prop where
  | empty : ReachableBook ⟨[]⟩
  | add_record (b : AddressBook) (r : Record) :
      ReachableBook b → ReachableBook (b.add_record r)
  | delete (b : AddressBook) (name : String) :
      ReachableBook b → ReachableBook (b.delete name).2

/-- C8: every book reachable from the empty book by `add_record`, `find`
and `delete` satisfies the invariant that each entry key equals the name
value of the stored record; each operation preserves the invariant
(`find` does not mutate and the two mutating operations are the
reachability steps). -/
theorem reachable_keyed_by_name (b : AddressBook) (h : ReachableBook b) :
    KeyedByName b := by
  induction h with
  | empty =>
    intro kv hkv
    simp at hkv
  | add_record b r hb ih =>
    intro kv hkv
    have hkv2 : kv ∈ dictSet b.data r.name.value r := hkv
    unfold dictSet at hkv2
    split at hkv2
    · obtain ⟨a, ha, hae⟩ := List.mem_map.mp hkv2
      by_cases hak : (a.1 == r.name.value) = true
      · rw [if_pos hak] at hae
        rw [← hae]
      · rw [if_neg hak] at hae
        rw [← hae]
        exact ih a ha
    · rcases List.mem_append.mp hkv2 with hin | hin
      · exact ih kv hin
      · rw [List.mem_singleton.mp hin]
  | delete b name hb ih =>
    intro kv hkv
    unfold AddressBook.delete at hkv
    split at hkv
    · exact ih kv (List.mem_filter.mp hkv).1
    · exact ih kv hkv

/-- C8 witness: a concrete reachable book (one insertion followed by one
delete of an absent key) satisfies the invariant. -/
theorem reachable_keyed_by_name_witness :
    KeyedByName ((AddressBook.add_record ⟨[]⟩ ⟨⟨"ann"⟩, [⟨"1234567890"⟩]⟩).delete "zoe").2 :=
  reachable_keyed_by_name _
    (ReachableBook.delete _ "zoe" (ReachableBook.add_record _ _ ReachableBook.empty))

theorem find?_filter_self (l : List (String × Record)) (name : String) :
    (l.filter (fun kv => !(kv.1 == name))).find? (fun kv => kv.1 == name) = none := by
  rw [List.find?_eq_none]
  intro x hx
  have := (List.mem_filter.mp hx).2
  simp at this
  simp [this]

theorem find?_filter_ne (l : List (String × Record)) (name k : String) (hk : k ≠ name) :
    (l.filter (fun kv => !(kv.1 == name))).find? (fun kv => kv.1 == k) =
      l.find? (fun kv => kv.1 == k) := by
  induction l with
  | nil => rfl
  | cons a l ih =>
    rcases han : (a.1 == name) with _ | _
    · rw [List.filter_cons_of_pos (by simp [han])]
      rcases hak : (a.1 == k) with _ | _
      · rw [List.find?_cons_of_neg _ (by simp [hak]),
          List.find?_cons_of_neg _ (by simp [hak]), ih]
      · rw [List.find?_cons_of_pos _ (by exact hak),
          List.find?_cons_of_pos _ (by exact hak)]
    · have : a.1 = name := by simpa using han
      rw [List.filter_cons_of_neg (by simp [han]),
        List.find?_cons_of_neg _ (by simp [this, Ne.symm hk]), ih]

theorem length_filter_nodup (l : List (String × Record)) (name : String)
    (hnd : (l.map Prod.fst).Nodup) (hany : l.any (fun kv => kv.1 == name) = true) :
    (l.filter (fun kv => !(kv.1 == name))).length + 1 = l.length := by
  induction l with
  | nil => cases hany
  | cons a l ih =>
    rw [List.map_cons, List.nodup_cons] at hnd
    rcases han : (a.1 == name) with _ | _
    · rw [List.filter_cons_of_pos (by simp [han]), List.length_cons]
      have hany2 : l.any (fun kv => kv.1 == name) = true := by
        simpa only [List.any_cons, han, Bool.false_or] using hany
      rw [ih hnd.2 hany2]
      rfl
    · have ha : a.1 = name := by simpa using han
      rw [List.filter_cons_of_neg (by simp [han])]
      have hl : l.filter (fun kv => !(kv.1 == name)) = l := by
        rw [List.filter_eq_self]
        intro x hx
        have : x.1 ≠ name := by
          intro hxn
          exact hnd.1 (by
            rw [ha, ← hxn]
            exact List.mem_map.mpr ⟨x, hx, rfl⟩)
        simp [this]
      rw [hl, List.length_cons]

/-! ## C6 -/

/-- C6: deleting a name that is not a key of the book fails with the
`RecordNotFound` error (`ValueError "Record not found"`) and returns the
book unchanged — in particular the size is unchanged; deleting a name
that is a key succeeds and removes exactly that entry: afterwards the
name is no longer found, every other key maps to what it mapped to
before, and for a book whose keys are distinct (as dict-backed books are)
the size drops by exactly one. -/
theorem delete_spec (b : AddressBook) (name : String) :
    (b.find name = none →
      b.delete name = (.error (.valueError "Record not found"), b)) ∧
    ((b.find name).isSome → (b.data.map Prod.fst).Nodup →
      (b.delete name).1 = .ok () ∧
      (b.delete name).2.find name = none ∧
      (∀ k, k ≠ name → (b.delete name).2.find k = b.find k) ∧
      (b.delete name).2.size + 1 = b.size) := by
  constructor
  · intro h
    have hf : b.data.find? (fun kv => kv.1 == name) = none := by
      rcases hq : b.data.find? (fun kv => kv.1 == name) with _ | x
      · exact hq
      · unfold AddressBook.find at h
        rw [hq] at h
        cases h
    have hany : b.data.any (fun kv => kv.1 == name) = false := by
      rw [List.any_eq_false]
      intro x hx
      exact List.find?_eq_none.mp hf x hx
    unfold AddressBook.delete
    rw [if_neg (by simp [hany])]
  · intro h hnd
    have hany : b.data.any (fun kv => kv.1 == name) = true := by
      obtain ⟨rec, hrec⟩ := Option.isSome_iff_exists.mp h
      unfold AddressBook.find at hrec
      rcases hq : b.data.find? (fun kv => kv.1 == name) with _ | x
      · rw [hq] at hrec
        cases hrec
      · have hmem := List.mem_of_find?_eq_some hq
        have hpx := List.find?_some hq
        exact List.any_eq_true.mpr ⟨x, hmem, hpx⟩
    unfold AddressBook.delete
    rw [if_pos hany]
    refine ⟨rfl, ?_, ?_, ?_⟩
    · show ((b.data.filter _).find? (fun kv => kv.1 == name)).map (fun kv => kv.2) = none
      rw [find?_filter_self]
      rfl
    · intro k hk
      show ((b.data.filter _).find? (fun kv => kv.1 == k)).map (fun kv => kv.2) =
        (b.data.find? (fun kv => kv.1 == k)).map (fun kv => kv.2)
      rw [find?_filter_ne b.data name k hk]
    · show (b.data.filter _).length + 1 = b.data.length
      exact length_filter_nodup b.data name hnd hany

/-- C6 witness: on a concrete two-entry book, deleting the absent key
`zoe` fails leaving the book as it was, and deleting `ann` removes
exactly that entry. -/
theorem delete_spec_witness :
    AddressBook.delete ⟨[("ann", ⟨⟨"ann"⟩, []⟩), ("bob", ⟨⟨"bob"⟩, []⟩)]⟩ "zoe" =
      (.error (.valueError "Record not found"),
        ⟨[("ann", ⟨⟨"ann"⟩, []⟩), ("bob", ⟨⟨"bob"⟩, []⟩)]⟩) ∧
    (AddressBook.delete ⟨[("ann", ⟨⟨"ann"⟩, []⟩), ("bob", ⟨⟨"bob"⟩, []⟩)]⟩ "ann").1 =
      .ok () ∧
    (AddressBook.delete ⟨[("ann", ⟨⟨"ann"⟩, []⟩), ("bob", ⟨⟨"bob"⟩, []⟩)]⟩
        "ann").2.find "ann" = none ∧
    (AddressBook.delete ⟨[("ann", ⟨⟨"ann"⟩, []⟩), ("bob", ⟨⟨"bob"⟩, []⟩)]⟩
        "ann").2.find "bob" =
      AddressBook.find ⟨[("ann", ⟨⟨"ann"⟩, []⟩), ("bob", ⟨⟨"bob"⟩, []⟩)]⟩ "bob" ∧
    (AddressBook.delete ⟨[("ann", ⟨⟨"ann"⟩, []⟩), ("bob", ⟨⟨"bob"⟩, []⟩)]⟩
        "ann").2.size + 1 =
      AddressBook.size ⟨[("ann", ⟨⟨"ann"⟩, []⟩), ("bob", ⟨⟨"bob"⟩, []⟩)]⟩ :=
  ⟨(delete_spec _ "zoe").1 (by decide),
   ((delete_spec _ "ann").2 (by decide) (by decide)).1,
   ((delete_spec _ "ann").2 (by decide) (by decide)).2.1,
   ((delete_spec _ "ann").2 (by decide) (by decide)).2.2.1 "bob" (by decide),
   ((delete_spec _ "ann").2 (by decide) (by decide)).2.2.2⟩

/-! ## C9 -/

/-- Joining per the words of the spec: the pieces in order with the
separator between consecutive pieces, the empty list giving the empty
string. -/
def specJoin (sep : String) : List String → String
  | [] => ""
  | [x] => x
  | x :: y :: xs => x ++ sep ++ specJoin sep (y :: xs)

/-- Tail form of `specJoin`: separator before every piece. -/
def specJoinTail (sep : String) : List String → String
  | [] => ""
  | a :: as => sep ++ a ++ specJoinTail sep as

theorem intercalate_go_eq (s : String) (as : List String) :
    ∀ acc, String.intercalate.go acc s as = acc ++ specJoinTail s as := by
  induction as with
  | nil =>
    intro acc
    show acc = acc ++ ""
    rw [String.append_empty]
  | cons a as ih =>
    intro acc
    show String.intercalate.go (acc ++ s ++ a) s as = _
    rw [ih]
    show acc ++ s ++ a ++ specJoinTail s as = acc ++ (s ++ a ++ specJoinTail s as)
    simp [String.append_assoc]

theorem specJoin_eq_tail (sep x : String) (xs : List String) :
    specJoin sep (x :: xs) = x ++ specJoinTail sep xs := by
  induction xs generalizing x with
  | nil =>
    show x = x ++ ""
    rw [String.append_empty]
  | cons y ys ih =>
    show x ++ sep ++ specJoin sep (y :: ys) = _
    rw [ih y]
    show x ++ sep ++ (y ++ specJoinTail sep ys) = x ++ (sep ++ y ++ specJoinTail sep ys)
    simp [String.append_assoc]

theorem intercalate_eq_specJoin (sep : String) (l : List String) :
    String.intercalate sep l = specJoin sep l := by
  cases l with
  | nil => rfl
  | cons a as =>
    show String.intercalate.go a sep as = _
    rw [intercalate_go_eq, specJoin_eq_tail]

/-- C9: a record renders as `Contact name: ` followed by the name value,
`, phones: `, and the phone values in list order joined by `; ` (so an
empty phone list renders as `Contact name: {name}, phones: ` with nothing
after it); a book renders as the renderings of its records in iteration
order joined by newline, the empty book rendering as the empty string. -/
theorem render_spec :
    (∀ r : Record, r.render =
      "Contact name: " ++ r.name.value ++ ", phones: " ++
        specJoin "; " (r.phones.map Phone.value)) ∧
    (∀ r : Record, r.phones = [] →
      r.render = "Contact name: " ++ r.name.value ++ ", phones: ") ∧
    (∀ b : AddressBook, b.render =
      specJoin "\n" (b.data.map (fun kv => kv.2.render))) ∧
    AddressBook.render ⟨[]⟩ = "" := by
  refine ⟨?_, ?_, ?_, rfl⟩
  · intro r
    unfold Record.render
    rw [intercalate_eq_specJoin]
  · intro r h
    unfold Record.render
    rw [h]
    show "Contact name: " ++ r.name.value ++ ", phones: " ++ "" = _
    rw [String.append_empty]
  · intro b
    unfold AddressBook.render
    rw [intercalate_eq_specJoin]

/-- C9 witness: the empty-phone-list hypothesis discharged on a concrete
record. -/
theorem render_spec_witness :
    Record.render ⟨⟨"ann"⟩, []⟩ = "Contact name: " ++ "ann" ++ ", phones: " :=
  render_spec.2.1 ⟨⟨"ann"⟩, []⟩ rfl

/-! ## C10 -/

/-- C10: starting from an empty book, `add kate 1234567890` stores the
record; `change kate 12` fails with the invalid-phone message and leaves
the stored record with an empty phone list (the old phone was removed,
the new one rejected); a subsequent `change kate 1234567890` does not
produce a phone- or contact-related error: reading the first phone of the
empty list raises `IndexError`, which the `input_error` wrapper reports
as `Error: Invalid command format.`, and the book is unchanged. -/
theorem change_on_empty_phone_list_scenario :
    stepLine ⟨[]⟩ "add kate 1234567890" =
      .cont "Contact added." ⟨[("kate", ⟨⟨"kate"⟩, [⟨"1234567890"⟩]⟩)]⟩ ∧
    stepLine ⟨[("kate", ⟨⟨"kate"⟩, [⟨"1234567890"⟩]⟩)]⟩ "change kate 12" =
      .cont "Error: Phone number must be 10 digits" ⟨[("kate", ⟨⟨"kate"⟩, []⟩)]⟩ ∧
    AddressBook.find ⟨[("kate", ⟨⟨"kate"⟩, []⟩)]⟩ "kate" = some ⟨⟨"kate"⟩, []⟩ ∧
    stepLine ⟨[("kate", ⟨⟨"kate"⟩, []⟩)]⟩ "change kate 1234567890" =
      .cont "Error: Invalid command format." ⟨[("kate", ⟨⟨"kate"⟩, []⟩)]⟩ := by
  decide
